import Mathlib

/-! Verification development for the BrainRH matching engine.

Shallow embedding, over exact rationals and explicit oracles, of:
- the pure scoring formulas of `lib/matching_core.py`,
- the per-candidate result merge of the SSE `event_generator` in
  `api/routers/matching.py`,
- the retrying invokers `_run_one` (`must_have_parallel.py`),
  `_find_nice_have_missing_one` (`nice_have_parallel.py`) and
  `_parse_single_cv_async` (`lib/parallel_engine.py`); remote-call attempts
  are supplied by an oracle mapping the attempt index to its outcome,
- the batch entry points `parse_cvs_parallel_async` and
  `filter_cvs_by_must_have_parallel`, instrumented with an event trace that
  records resource construction and item-processing calls,
- the timeline analyser `lib/experience_analyzer.py` (lenient date parsing,
  gap and overlap detection),
- the semaphore plus in-flight-counter orchestration shared by the parallel
  batch drivers, as a small-step interleaving semantics.
-/

/-! ### Scoring formulas (`lib/matching_core.py`) -/

/-- Model of the Python clamping idiom `max(lo, min(hi, x))` used throughout
`lib/matching_core.py`. -/
def clampQ (lo hi x : ℚ) : ℚ := max lo (min hi x)

/-- Embedding of `matching_core.calculate_nice_have_malus`: returns `1.0` when
`nb_manquants <= 0`, otherwise `malus_factor ** nb_manquants` clamped to
`[0, 1]`. `nb_manquants` is a list length, hence `Nat`. -/
def calculate_nice_have_malus (nb_manquants : Nat) (malus_factor : ℚ) : ℚ :=
  if nb_manquants ≤ 0 then 1 else clampQ 0 1 (malus_factor ^ nb_manquants)

/-- Embedding of `matching_core.calculate_final_score`:
`score = score_base * bonus_nice_have * coefficient_experience` (left
associated, as in Python), then `max(0.0, min(1.0, score))`. -/
def calculate_final_score (score_base bonus_nice_have coefficient_experience : ℚ) : ℚ :=
  clampQ 0 1 (score_base * bonus_nice_have * coefficient_experience)

/-- Embedding of `matching_core.validate_coefficient_experience` on numeric
input: `max(1.0, min(1.4, coef))`. The `except (ValueError, TypeError)`
branch for non-numeric input (returning `1.0`) lies outside the numeric
model. -/
def validate_coefficient_experience (coef : ℚ) : ℚ :=
  max 1 (min 1.4 coef)

/-- Model of `lib.models.ResultatMatching` (the fields the scoring claims
talk about; evidences and flags are carried elsewhere). -/
structure ResultatMatching where
  cv : String
  score_final : ℚ
  score_base : ℚ
  bonus_nice_have_multiplicateur : ℚ
  coefficient_qualite_experience : ℚ
  nice_have_manquants : List String
  commentaire_scoring : Option String
  appreciation_globale : Option String
deriving DecidableEq, Repr

/-- Embedding of `matching_core.build_matching_result`: computes the nice-have
bonus from the number of missing criteria, validates the experience
coefficient, computes the final score and stores all components. -/
def build_matching_result (cv : String) (score_base : ℚ) (nice_have_manquants : List String)
    (malus_factor : ℚ) (coefficient_experience : ℚ)
    (commentaire_scoring appreciation_globale : Option String) : ResultatMatching :=
  let bonus_nice_have := calculate_nice_have_malus nice_have_manquants.length malus_factor
  let coef := validate_coefficient_experience coefficient_experience
  let score_final := calculate_final_score score_base bonus_nice_have coef
  { cv := cv
    score_final := score_final
    score_base := score_base
    bonus_nice_have_multiplicateur := bonus_nice_have
    coefficient_qualite_experience := coef
    nice_have_manquants := nice_have_manquants
    commentaire_scoring := commentaire_scoring
    appreciation_globale := appreciation_globale }

/-! ### Result merge of the SSE streaming endpoint
(`api/routers/matching.py`, `event_generator`, lines 307-389) -/

/-- The scoring data kept for one CV in `scored_map` (dictionary reads with
`.get(key, default)` become `Option` fields read with `getD`). -/
structure ScoredCvData where
  score_base : Option ℚ
  bonus_nice_have_multiplicateur : Option ℚ
  nice_have_manquants : Option (List String)
deriving DecidableEq, Repr

/-- One re-ranked CV dictionary as produced by `rerank_with_llm`; the
coefficient comes from the remote model response unvalidated. -/
structure RerankedCvData where
  cv : String
  coefficient_qualite_experience : Option ℚ
  commentaire_scoring : Option String
  appreciation_globale : Option String
deriving DecidableEq, Repr

/-- One entry of the `results` list built by `event_generator`. -/
structure RouterResult where
  cv : String
  score_final : ℚ
  score_base : ℚ
  bonus_nice_have_multiplicateur : ℚ
  nice_have_manquants : List String
  coefficient_qualite_experience : ℚ
deriving DecidableEq, Repr

/-- Embedding of the per-candidate merge in `event_generator`
(`api/routers/matching.py` lines 307-389): the coefficient is read from the
re-rank output with default `1.0` and used without clamping; `score_final`
is recomputed as `max(0.0, min(1.0, score_base * bonus * coefficient))`. -/
def routerMergeOne (original : ScoredCvData) (cvResult : RerankedCvData) : RouterResult :=
  let coefficient_experience := cvResult.coefficient_qualite_experience.getD 1
  let score_base := original.score_base.getD 0
  let bonus_nice_have := original.bonus_nice_have_multiplicateur.getD 1
  let score_final_with_coef := clampQ 0 1 (score_base * bonus_nice_have * coefficient_experience)
  { cv := cvResult.cv
    score_final := score_final_with_coef
    score_base := score_base
    bonus_nice_have_multiplicateur := bonus_nice_have
    nice_have_manquants := original.nice_have_manquants.getD []
    coefficient_qualite_experience := coefficient_experience }

/-! ### Exponential backoff with jitter
(`must_have_parallel._run_one` lines 157-161,
`parallel_engine._parse_single_cv_async` lines 175-179) -/

/-- The `delay` variable of the retry loops: it starts at `backoff_s` and is
doubled (`delay *= 2`) after each backoff sleep, so before the sleep that
follows failed attempt `k` it holds `backoff_s * 2 ^ k`. -/
def delayAt (backoff_s : ℚ) : Nat → ℚ
  | 0 => backoff_s
  | k + 1 => delayAt backoff_s k * 2

/-- Model of `random.uniform(0, hi)`: CPython evaluates `a + (b - a) * random()`
with `random() ∈ [0, 1)`, so a draw is `0 + (hi - 0) * u` for some
`u ∈ [0, 1)`. -/
def uniformDraw (hi u : ℚ) : ℚ := 0 + (hi - 0) * u

/-- Embedding of `jitter = random.uniform(0, delay / 4)` followed by
`asyncio.sleep(delay + jitter)` after failed attempt `k`. -/
def backoffSleep (backoff_s : ℚ) (k : Nat) (u : ℚ) : ℚ :=
  delayAt backoff_s k + uniformDraw (delayAt backoff_s k / 4) u

/-! ### Retrying invokers, attempt outcomes supplied by an oracle

The remote call of attempt `k` is modelled by an oracle evaluated at `k`.
Every exception raised inside the `try` block of the source loops is caught
(`except asyncio.TimeoutError` / `except Exception`), so the models are
total functions: failure is returned as data, never thrown. -/

/-- Outcome of one `decide_fn` attempt in `must_have_parallel._run_one`:
either the call returns `(accepted, rationale, raw)`, or it times out, or it
raises an exception with message `msg`. -/
inductive MustAttempt where
  | ok (accepted : Bool) (rationale : String) (raw : String)
  | timeout
  | exc (msg : String)
deriving DecidableEq, Repr

/-- True when the attempt outcome is a timeout or an exception. -/
def MustAttempt.isFail : MustAttempt → Bool
  | .ok _ _ _ => false
  | .timeout => true
  | .exc _ => true

/-- The `last_err` string recorded by `_run_one` for failed attempt
`attempt`: the timeout message built by the handler, or `str(e)`. The `.ok`
case is a dummy (no error is recorded for a success). -/
def mustErrMsg (timeout_s retries attempt : Nat) : MustAttempt → String
  | .ok _ _ _ => "None"
  | .timeout => "Timeout après " ++ toString timeout_s ++ "s (tentative " ++
      toString (attempt + 1) ++ "/" ++ toString (retries + 1) ++ ")"
  | .exc msg => msg

/-- The `raw` component returned by `_run_one`: the decide function's raw
trace on success, the `{"error": last_err}` dictionary on failure. -/
inductive MustRaw where
  | fromFn (s : String)
  | errorTrace (msg : String)
deriving DecidableEq, Repr

/-- The `(accepted, rationale, raw)` part of `_run_one`'s return value. -/
structure MustOutcome where
  accepted : Bool
  rationale : String
  raw : MustRaw
deriving DecidableEq, Repr

/-- The value `_run_one` returns after exhausting all attempts:
`(False, "[ERREUR après {retries+1} tentatives] {last_err}",
{"error": last_err})` — a conservative rejection reported as data. -/
def mustFailOutcome (retries : Nat) (lastErr : String) : MustOutcome :=
  { accepted := false
    rationale := "[ERREUR après " ++ toString (retries + 1) ++ " tentatives] " ++ lastErr
    raw := .errorTrace lastErr }

/-- The attempt loop of `must_have_parallel._run_one` (lines 127-166):
`attempt` is the current index, `fuel` the number of attempts left
(initially `retries + 1`), `lastErr` the last recorded error. Returns the
outcome together with the number of attempts made. -/
def runOneMustGo (timeout_s retries : Nat) (decideFn : Nat → MustAttempt) :
    Nat → Nat → Option String → MustOutcome × Nat
  | attempt, 0, lastErr => (mustFailOutcome retries (lastErr.getD "None"), attempt)
  | attempt, fuel + 1, _ =>
    match decideFn attempt with
    | .ok accepted rationale raw => (⟨accepted, rationale, .fromFn raw⟩, attempt + 1)
    | .timeout =>
        runOneMustGo timeout_s retries decideFn (attempt + 1) fuel
          (some (mustErrMsg timeout_s retries attempt .timeout))
    | .exc m =>
        runOneMustGo timeout_s retries decideFn (attempt + 1) fuel
          (some (mustErrMsg timeout_s retries attempt (.exc m)))

/-- Embedding of `must_have_parallel._run_one`: up to `retries + 1` attempts,
starting at attempt index 0 with no recorded error. -/
def runOneMust (timeout_s retries : Nat) (decideFn : Nat → MustAttempt) : MustOutcome × Nat :=
  runOneMustGo timeout_s retries decideFn 0 (retries + 1) none

/-- Outcome of one parsing attempt in
`parallel_engine._parse_single_cv_async`: the LLM call returns parsed data;
or `extract_text_from_file` raises before in-flight tracking starts; or the
LLM call times out; or it raises. -/
inductive ParseAttempt where
  | ok (data : String)
  | extractErr (msg : String)
  | timeout
  | exc (msg : String)
deriving DecidableEq, Repr

/-- True when the parse attempt outcome is a failure of any kind. -/
def ParseAttempt.isFail : ParseAttempt → Bool
  | .ok _ => false
  | .extractErr _ => true
  | .timeout => true
  | .exc _ => true

/-- The `last_err` string recorded by `_parse_single_cv_async` for failed
attempt `attempt` (an extraction error is caught by `except Exception`, so
`last_err = str(e)`). -/
def parseErrMsg (timeout_s retries attempt : Nat) : ParseAttempt → String
  | .ok _ => "None"
  | .extractErr msg => msg
  | .timeout => "Timeout après " ++ toString timeout_s ++ "s (tentative " ++
      toString (attempt + 1) ++ "/" ++ toString (retries + 1) ++ ")"
  | .exc msg => msg

/-- Model of `lib.models.CVParseResult` (timings omitted: wall-clock). -/
structure CVParseOutcome where
  filename : String
  success : Bool
  data : Option String
  error : Option String
deriving DecidableEq, Repr

/-- The attempt loop of `parallel_engine._parse_single_cv_async`
(lines 133-191), same shape as `runOneMustGo`. -/
def runOneParseGo (filename : String) (timeout_s retries : Nat) (parseFn : Nat → ParseAttempt) :
    Nat → Nat → Option String → CVParseOutcome × Nat
  | attempt, 0, lastErr =>
    ({ filename := filename, success := false, data := none, error := some (lastErr.getD "None") }, attempt)
  | attempt, fuel + 1, _ =>
    match parseFn attempt with
    | .ok d => ({ filename := filename, success := true, data := some d, error := none }, attempt + 1)
    | .extractErr m =>
        runOneParseGo filename timeout_s retries parseFn (attempt + 1) fuel
          (some (parseErrMsg timeout_s retries attempt (.extractErr m)))
    | .timeout =>
        runOneParseGo filename timeout_s retries parseFn (attempt + 1) fuel
          (some (parseErrMsg timeout_s retries attempt .timeout))
    | .exc m =>
        runOneParseGo filename timeout_s retries parseFn (attempt + 1) fuel
          (some (parseErrMsg timeout_s retries attempt (.exc m)))

/-- Embedding of `parallel_engine._parse_single_cv_async`. -/
def runOneParse (filename : String) (timeout_s retries : Nat) (parseFn : Nat → ParseAttempt) :
    CVParseOutcome × Nat :=
  runOneParseGo filename timeout_s retries parseFn 0 (retries + 1) none

/-- Outcome of one `find_fn` attempt in
`nice_have_parallel._find_nice_have_missing_one`. -/
inductive NiceAttempt where
  | ok (manquants : List String)
  | timeout
  | exc (msg : String)
deriving DecidableEq, Repr

/-- True when the nice-have attempt outcome is a failure. -/
def NiceAttempt.isFail : NiceAttempt → Bool
  | .ok _ => false
  | .timeout => true
  | .exc _ => true

/-- The `last_err` string recorded for failed nice-have attempt `attempt`. -/
def niceErrMsg (timeout_s retries attempt : Nat) : NiceAttempt → Option String
  | .ok _ => none
  | .timeout => some ("Timeout après " ++ toString timeout_s ++ "s (tentative " ++
      toString (attempt + 1) ++ "/" ++ toString (retries + 1) ++ ")")
  | .exc msg => some msg

/-- The attempt loop of `nice_have_parallel._find_nice_have_missing_one`
(lines 121-160): on success, `(manquants, None)`; after exhausting all
attempts, `(nice_have_list, last_err)` — the whole criteria list is
reported missing. Also returns the number of attempts made. -/
def runOneNiceGo (nice_have_list : List String) (timeout_s retries : Nat)
    (findFn : Nat → NiceAttempt) :
    Nat → Nat → Option String → (List String × Option String) × Nat
  | attempt, 0, lastErr => ((nice_have_list, some (lastErr.getD "None")), attempt)
  | attempt, fuel + 1, _ =>
    match findFn attempt with
    | .ok manquants => ((manquants, none), attempt + 1)
    | .timeout =>
        runOneNiceGo nice_have_list timeout_s retries findFn (attempt + 1) fuel
          (niceErrMsg timeout_s retries attempt .timeout)
    | .exc m =>
        runOneNiceGo nice_have_list timeout_s retries findFn (attempt + 1) fuel
          (niceErrMsg timeout_s retries attempt (.exc m))

/-- Embedding of `nice_have_parallel._find_nice_have_missing_one`. -/
def runOneNice (nice_have_list : List String) (timeout_s retries : Nat)
    (findFn : Nat → NiceAttempt) : (List String × Option String) × Nat :=
  runOneNiceGo nice_have_list timeout_s retries findFn 0 (retries + 1) none

/-! ### Batch entry points with resource-construction traces

`parse_cvs_parallel_async` (`lib/parallel_engine.py` lines 194-297) and
`filter_cvs_by_must_have_parallel` (`must_have_parallel.py` lines 169-267).
Each CV dictionary is modelled by its identifier string. The event trace
records, in program order, the tracking reset, the `RateLimiter(qps)`
construction, the `ThreadPoolExecutor` construction, and every invocation
of the item-processing function (item index, attempt index). `as_completed`
yields results in an arbitrary order, modelled by the `completionOrder`
index list. -/

/-- One observable resource event of a batch entry point. -/
inductive EngEvent where
  | trackingReset
  | limiterCtor
  | poolCtor
  | itemCall (item attempt : Nat)
deriving DecidableEq, Repr

/-- ASCII whitespace test modelling the default character set of Python
`str.strip` (the unicode whitespace extras are outside the model). -/
def isSpaceB (c : Char) : Bool :=
  c = ' ' ∨ c = '\t' ∨ c = '\n' ∨ c = '\r' ∨ c = '\x0b' ∨ c = '\x0c'

/-- Model of Python `str.strip()` on a character list: drop whitespace from
both ends. -/
def trimChars (l : List Char) : List Char :=
  ((l.dropWhile isSpaceB).reverse.dropWhile isSpaceB).reverse

/-- Embedding of `must_have_parallel._is_empty`:
`not xs or all((not s) or (not s.strip()) for s in xs)`. -/
def _is_empty (xs : List String) : Bool :=
  xs.isEmpty || xs.all (fun s => s.isEmpty || (trimChars s.data).isEmpty)

/-- Embedding of `parallel_engine.parse_cvs_parallel_async`: for an empty file
list it returns the zero-count summary immediately (before the tracking
reset and the `RateLimiter`/pool construction); otherwise it resets the
tracking, builds the limiter and the pool, runs one `_parse_single_cv_async`
task per file and aggregates in completion order. Result:
`(success_count, failed_count, total, results)` plus the event trace. -/
def parse_cvs_parallel (cv_files : List String) (timeout_s retries : Nat)
    (parseFn : Nat → Nat → ParseAttempt) (completionOrder : List Nat) :
    (Nat × Nat × Nat × List CVParseOutcome) × List EngEvent :=
  if cv_files.isEmpty then ((0, 0, 0, []), [])
  else
    let outcomes := cv_files.enum.map (fun p => runOneParse p.2 timeout_s retries (parseFn p.1))
    let calls := (List.range cv_files.length).map (fun i =>
      (List.range (runOneParse (cv_files[i]?.getD "") timeout_s retries (parseFn i)).2).map
        (fun k => EngEvent.itemCall i k))
    let collected := completionOrder.filterMap (fun i => outcomes[i]?.map (·.1))
    ((collected.countP (·.success), collected.countP (fun r => !r.success),
      cv_files.length, collected),
     [.trackingReset, .limiterCtor, .poolCtor] ++ calls.flatten)

/-- One stored trace entry of `filter_cvs_by_must_have_parallel`. -/
structure MustTrace where
  accepted : Bool
  rationale : String
  raw : MustRaw
deriving DecidableEq, Repr

/-- Embedding of `must_have_parallel.filter_cvs_by_must_have_parallel`: with
no effective must-have criteria all CVs are accepted immediately; otherwise
the tracking is reset, the `RateLimiter` and the pool are constructed
unconditionally — even when `cvs` is empty — and one `_run_one` task per CV
is aggregated in completion order into `(accepted, rejected, traces)`. -/
def filter_cvs_by_must_have (cvs : List String) (must_haves : List String)
    (timeout_s retries : Nat) (decideFn : Nat → Nat → MustAttempt)
    (completionOrder : List Nat) :
    (List String × List String × List (String × MustTrace)) × List EngEvent :=
  if _is_empty must_haves then ((cvs, [], []), [])
  else
    let outcomes := cvs.enum.map (fun p => (p.2, runOneMust timeout_s retries (decideFn p.1)))
    let calls := (List.range cvs.length).map (fun i =>
      (List.range (runOneMust timeout_s retries (decideFn i)).2).map
        (fun k => EngEvent.itemCall i k))
    let collected := completionOrder.filterMap (fun i => outcomes[i]?)
    (((collected.filter (fun p => p.2.1.accepted)).map (·.1),
      (collected.filter (fun p => !p.2.1.accepted)).map (·.1),
      collected.map (fun p => (p.1, ⟨p.2.1.accepted, p.2.1.rationale, p.2.1.raw⟩))),
     [.trackingReset, .limiterCtor, .poolCtor] ++ calls.flatten)

/-! ### Experience analyser (`lib/experience_analyzer.py`)

Python `datetime` values are modelled at day precision (the time-of-day part
of `datetime.now()` plays no role in the month/day computations the claims
are about). `datetime.now()` is impure, so the analyser takes the current
date as an explicit `now` parameter. -/

/-- Calendar date model of Python `datetime` (day precision). -/
structure PyDate where
  year : Int
  month : Nat
  day : Nat
deriving DecidableEq, Repr

/-- Lexicographic `<` on dates, as Python compares `datetime` values. -/
def dateLtB (a b : PyDate) : Bool :=
  decide (a.year < b.year ∨ (a.year = b.year ∧
    (a.month < b.month ∨ (a.month = b.month ∧ a.day < b.day))))

/-- Lexicographic `<=` on dates. -/
def dateLeB (a b : PyDate) : Bool := dateLtB a b || a == b

/-- Python `max(a, b)` on dates (returns the first argument on ties). -/
def maxDate (a b : PyDate) : PyDate := if dateLtB a b then b else a

/-- Python `min(a, b)` on dates (returns the first argument on ties). -/
def minDate (a b : PyDate) : PyDate := if dateLtB b a then b else a

/-- Gregorian leap-year test (`calendar.isleap`). -/
def isLeapYear (y : Int) : Bool := y % 4 == 0 && (y % 100 != 0 || y % 400 == 0)

/-- Number of days of month `m` of year `y` (`calendar.monthrange(y, m)[1]`),
for normalized months `1..12`. -/
def daysInMonth (y : Int) (m : Nat) : Nat :=
  if m = 2 then (if isLeapYear y then 29 else 28)
  else if m = 4 ∨ m = 6 ∨ m = 9 ∨ m = 11 then 30
  else 31

/-- Adding `m` months to a date, as `dateutil.relativedelta.__radd__` does:
normalize the month count into year/month, clamp the day to the target
month's length. -/
def addMonths (d : PyDate) (m : Int) : PyDate :=
  let total : Int := d.year * 12 + (d.month : Int) - 1 + m
  let y := total.fdiv 12
  let mo := (total - 12 * y).toNat + 1
  { year := y, month := mo, day := min d.day (daysInMonth y mo) }

/-- Civil-calendar day number of a date (`date.toordinal` up to a constant
offset), used to model `timedelta.days` of a date difference. -/
def daysFromCivil (d : PyDate) : Int :=
  let y : Int := if d.month ≤ 2 then d.year - 1 else d.year
  let era : Int := (if 0 ≤ y then y else y - 399) / 400
  let yoe : Int := y - era * 400
  let mp : Int := ((d.month : Int) + 9) % 12
  let doy : Int := (153 * mp + 2) / 5 + (d.day : Int) - 1
  let doe : Int := yoe * 365 + yoe / 4 - yoe / 100 + doy
  era * 146097 + doe - 719468

/-- Embedding of `experience_analyzer.days_between`:
`abs((date2 - date1).days)`. -/
def days_between (date1 date2 : PyDate) : Nat :=
  (daysFromCivil date2 - daysFromCivil date1).natAbs

/-- One step of the downward adjustment loop of `relativedelta.__init__`
(`while dt1 < dtm: months -= 1`). -/
def adjustDown (d1 d2 : PyDate) : Nat → Int → Int
  | 0, m => m
  | fuel + 1, m => if dateLtB d2 (addMonths d1 m) then adjustDown d1 d2 fuel (m - 1) else m

/-- One step of the upward adjustment loop of `relativedelta.__init__`
(`while dt1 > dtm: months += 1`). -/
def adjustUp (d1 d2 : PyDate) : Nat → Int → Int
  | 0, m => m
  | fuel + 1, m => if dateLtB (addMonths d1 m) d2 then adjustUp d1 d2 fuel (m + 1) else m

/-- The total month count `delta.years * 12 + delta.months` of
`relativedelta(dt1 = d2, dt2 = d1)`: the raw calendar month difference,
then the dateutil comparison loop; for calendar-valid dates that loop runs
at most once, so fuel 2 is an upper bound. -/
def rdMonths (d1 d2 : PyDate) : Int :=
  let m0 : Int := 12 * (d2.year - d1.year) + ((d2.month : Int) - (d1.month : Int))
  if dateLtB d2 d1 then adjustUp d1 d2 2 m0 else adjustDown d1 d2 2 m0

/-- Embedding of `experience_analyzer.months_between`:
`abs(delta.years * 12 + delta.months)` for
`delta = relativedelta(date2, date1)`. -/
def months_between (date1 date2 : PyDate) : Nat := (rdMonths date1 date2).natAbs

/-- ASCII lowercasing of a string, modelling `str.lower` (the accented
letters appearing in the keyword list are already lowercase). -/
def lowerStr (s : String) : String := String.mk (s.data.map Char.toLower)

/-- The "ongoing" keywords of `parse_date`. -/
def keywordList : List String :=
  ["présent", "actuel", "en cours", "current", "present", "now"]

/-- Substring containment on character lists (Python `keyword in date_str`). -/
def subList (p : List Char) : List Char → Bool
  | [] => p.isEmpty
  | c :: t => p.isPrefixOf (c :: t) || subList p t

/-- Numeric value of a decimal digit character. -/
def digitVal (c : Char) : Nat := c.toNat - 48

/-- Match `\d{4}` at the head of the list (trailing characters ignored, as
`re.match` only anchors at the start). -/
def take4Digits : List Char → Option Nat
  | a :: b :: c :: d :: _ =>
    if a.isDigit && b.isDigit && c.isDigit && d.isDigit then
      some (1000 * digitVal a + 100 * digitVal b + 10 * digitVal c + digitVal d)
    else none
  | _ => none

/-- Match `(\d{1,2})/(\d{4})` at the head of the list: the greedy two-digit
month is tried first, falling back to one digit when the slash does not
follow. Returns `(month, year)`. -/
def matchMMYYYY : List Char → Option (Nat × Nat)
  | a :: b :: rest =>
    if a.isDigit then
      if b.isDigit then
        match rest with
        | '/' :: rest2 => (take4Digits rest2).map (fun y => (10 * digitVal a + digitVal b, y))
        | _ => none
      else if b = '/' then (take4Digits rest).map (fun y => (digitVal a, y))
      else none
    else none
  | _ => none

/-- Match `(\d{4})-(\d{1,2})` at the head of the list. Returns
`(year, month)`. -/
def matchYYYYMM : List Char → Option (Nat × Nat)
  | a :: b :: c :: d :: '-' :: rest =>
    if a.isDigit && b.isDigit && c.isDigit && d.isDigit then
      let y := 1000 * digitVal a + 100 * digitVal b + 10 * digitVal c + digitVal d
      match rest with
      | e :: f :: _ =>
        if e.isDigit then
          some (y, if f.isDigit then 10 * digitVal e + digitVal f else digitVal e)
        else none
      | [e] => if e.isDigit then some (y, digitVal e) else none
      | [] => none
    else none
  | _ => none

/-- Match `(\d{4})` at the head of the list. -/
def matchYYYY (l : List Char) : Option Nat := take4Digits l

/-- Embedding of `experience_analyzer.parse_date`: empty input fails; the
input is stripped and lowercased; "ongoing" keywords resolve to `now`;
then the `MM/YYYY`, `YYYY-MM` and `YYYY` patterns are tried in this order,
the first two with month/year range validation (a matching but invalid
date returns `None` without trying the later patterns). -/
def parse_date (now : PyDate) (s : String) : Option PyDate :=
  if s = "" then none
  else
    let l := (trimChars s.data).map Char.toLower
    if keywordList.any (fun k => subList k.data l) then some now
    else
      match matchMMYYYY l with
      | some (m, y) =>
        if 1 ≤ m ∧ m ≤ 12 ∧ 1900 ≤ y ∧ y ≤ 2100 then some ⟨(y : Int), m, 1⟩ else none
      | none =>
        match matchYYYYMM l with
        | some (y, m) =>
          if 1 ≤ m ∧ m ≤ 12 ∧ 1900 ≤ y ∧ y ≤ 2100 then some ⟨(y : Int), m, 1⟩ else none
        | none => (matchYYYY l).map (fun y => ⟨(y : Int), 1, 1⟩)

/-- One raw experience dictionary: the four keys read by
`detect_gaps_and_overlaps`, each possibly missing. -/
structure ExpEntry where
  date_debut : Option String
  date_fin : Option String
  poste : Option String
  entreprise : Option String
deriving DecidableEq, Repr

/-- One parsed experience as stored in `parsed_exps`: the original list
index, the labels with their `'Inconnu'` defaults, and both parsed dates. -/
structure ParsedExp where
  index : Nat
  poste : String
  entreprise : String
  date_debut : PyDate
  date_fin : PyDate
deriving DecidableEq, Repr

/-- The parsing loop of `detect_gaps_and_overlaps`: entries whose start or
end date fails to parse are silently skipped; `i` is the running original
index (`enumerate`). -/
def parsedExpsAux (now : PyDate) : Nat → List ExpEntry → List ParsedExp
  | _, [] => []
  | i, e :: rest =>
    match parse_date now (e.date_debut.getD ""), parse_date now (e.date_fin.getD "") with
    | some dd, some df =>
      ⟨i, e.poste.getD "Inconnu", e.entreprise.getD "Inconnu", dd, df⟩ :: parsedExpsAux now (i + 1) rest
    | _, _ => parsedExpsAux now (i + 1) rest

/-- The sort order of `parsed_exps.sort(key=lambda x: x['date_fin'],
reverse=True)`: end date descending. -/
def finDescLe (a b : ParsedExp) : Prop := dateLeB b.date_fin a.date_fin = true

instance : DecidableRel finDescLe := fun _ _ => instDecidableEqBool _ _

/-- Model of `parsed_exps.sort(key=lambda x: x['date_fin'], reverse=True)`:
Python `list.sort` is a stable sort, and a stable sort with a given total
preorder has a unique output, here realised by insertion sort. -/
def sortByFinDesc (l : List ParsedExp) : List ParsedExp :=
  l.insertionSort finDescLe

/-- Two-digit zero padding (`%m`). -/
def pad2 (n : Nat) : String := if n < 10 then "0" ++ toString n else toString n

/-- Four-digit zero padding (`%Y`; the years in play are non-negative). -/
def pad4 (n : Int) : String :=
  let m := n.natAbs
  if m < 10 then "000" ++ toString m
  else if m < 100 then "00" ++ toString m
  else if m < 1000 then "0" ++ toString m
  else toString m

/-- The `strftime('%Y-%m')` formatting used in the period strings. -/
def fmtYm (d : PyDate) : String := pad4 d.year ++ "-" ++ pad2 d.month

/-- Model of `lib.models.Gap`. -/
structure Gap where
  period : String
  duration_months : Nat
  between : String
  cv_excerpt : Option String
deriving DecidableEq, Repr

/-- Model of `lib.models.Overlap`. -/
structure Overlap where
  overlap_period : String
  overlap_days : Nat
  experiences : String
  same_company : Bool
  cv_excerpt : Option String
deriving DecidableEq, Repr

/-- Model of `lib.models.Flags`. -/
structure Flags where
  gappes : List Gap
  overlaps : List Overlap
deriving DecidableEq, Repr

/-- The label fragment `Expérience #{index+1} ({entreprise})` used in both
detectors. -/
def expLabel (p : ParsedExp) : String :=
  "Expérience #" ++ toString (p.index + 1) ++ " (" ++ p.entreprise ++ ")"

/-- The Gap built for the adjacent sorted pair `(exp_current, exp_next)`
when the month distance is at least 3. -/
def mkGap (exp_current exp_next : ParsedExp) : Gap :=
  { period := fmtYm exp_next.date_fin ++ " → " ++ fmtYm exp_current.date_debut
    duration_months := months_between exp_next.date_fin exp_current.date_debut
    between := expLabel exp_next ++ " et " ++ expLabel exp_current
    cv_excerpt := none }

/-- The gap loop of `detect_gaps_and_overlaps` (lines 110-127): for each
adjacent pair of the end-date-descending list, emit a Gap when the month
distance between the next entry's end and the current entry's start is at
least 3. -/
def gapsOf : List ParsedExp → List Gap
  | exp_current :: exp_next :: rest =>
    (if 3 ≤ months_between exp_next.date_fin exp_current.date_debut
      then [mkGap exp_current exp_next] else []) ++ gapsOf (exp_next :: rest)
  | _ => []

/-- One candidate pair of the overlap loop: overlap test
`start_b < end_a and start_a < end_b`, intersection, day count, 14-day
threshold, case-insensitive employer comparison. -/
def mkOverlapPair (exp_a exp_b : ParsedExp) : Option Overlap :=
  if dateLtB exp_b.date_debut exp_a.date_fin && dateLtB exp_a.date_debut exp_b.date_fin then
    let overlap_start := maxDate exp_a.date_debut exp_b.date_debut
    let overlap_end := minDate exp_a.date_fin exp_b.date_fin
    let overlap_days_count := days_between overlap_start overlap_end
    if 14 < overlap_days_count then
      some { overlap_period := fmtYm overlap_start ++ " → " ++ fmtYm overlap_end
             overlap_days := overlap_days_count
             experiences := expLabel exp_a ++ " et " ++ expLabel exp_b
             same_company := lowerStr exp_a.entreprise == lowerStr exp_b.entreprise
             cv_excerpt := none }
    else none
  else none

/-- The overlap double loop of `detect_gaps_and_overlaps` (lines 129-156):
all unordered pairs `i < j` of the sorted list, in loop order. -/
def overlapsOf : List ParsedExp → List Overlap
  | exp_a :: rest => rest.filterMap (mkOverlapPair exp_a) ++ overlapsOf rest
  | [] => []

/-- Embedding of `experience_analyzer.detect_gaps_and_overlaps`. -/
def detect_gaps_and_overlaps (now : PyDate) (experiences : List ExpEntry) : Flags :=
  let parsed_exps := sortByFinDesc (parsedExpsAux now 0 experiences)
  { gappes := gapsOf parsed_exps, overlaps := overlapsOf parsed_exps }

/-- Erase the original-position index of a parsed experience (the only field
of `ParsedExp` that depends on the position of the entry in the input
list). -/
def stripIdx (p : ParsedExp) : ParsedExp := { p with index := 0 }

/-- Position-independent parsing of one entry (used to state which data of
`parsedExpsAux` survives a permutation of the input). -/
def parseEntry (now : PyDate) (e : ExpEntry) : Option ParsedExp :=
  match parse_date now (e.date_debut.getD ""), parse_date now (e.date_fin.getD "") with
  | some dd, some df =>
    some ⟨0, e.poste.getD "Inconnu", e.entreprise.getD "Inconnu", dd, df⟩
  | _, _ => none

/-- The label-free content of a Gap: its period string and month count. -/
def gapData (g : Gap) : String × Nat := (g.period, g.duration_months)

/-- The label-free content of an Overlap: its period string, day count and
same-employer flag. -/
def overlapData (o : Overlap) : String × Nat × Bool :=
  (o.overlap_period, o.overlap_days, o.same_company)

/-! ### Concurrency orchestration of the batch drivers

Small-step interleaving semantics for one batch: `asyncio.Semaphore(max(1,
concurrency))` wraps each task (`async def one: async with sem: ...`), and
inside it the retry loop touches the module-level in-flight counter through
`_track_inflight_start` / `_track_inflight_end` (both atomic: they run
under `_inflight_lock`). The counters start from `reset_inflight_tracking()`
(`current = peak = 0`). A task's remote-call attempts are described by a
script of attempt kinds:
- `ok`: the attempt increments the counter, the call succeeds, the counter
  is decremented and the task returns;
- `err`: the attempt increments the counter, the call times out or raises,
  the handler decrements the counter and the loop retries or gives up;
- `extErr`: specific to `_parse_single_cv_async`, where
  `extract_text_from_file` runs inside the `try` block before
  `_track_inflight_start`: the extraction raises, no increment has
  happened, yet the `except Exception` handler still calls
  `_track_inflight_end` and decrements. (`must_have_parallel._run_one`
  performs no work between the rate-limit acquire and the increment, so its
  scripts contain no `extErr`.) -/

/-- Kind of one attempt of a task, as seen by the in-flight counter. -/
inductive AttemptKind where
  | ok
  | err
  | extErr
deriving DecidableEq, Repr

/-- Control position of one batch task. `waiting`: before `async with sem`;
`ready`: holding the semaphore, before an attempt's tracking start;
`inflight`: between `_track_inflight_start` and `_track_inflight_end`;
`leaving`: returned from the inner coroutine, semaphore not yet released;
`finished`: semaphore released. -/
inductive Phase where
  | waiting
  | ready
  | inflight
  | leaving
  | finished
deriving DecidableEq, Repr

/-- One task: its control position and the attempt outcomes still to come. -/
structure TaskState where
  phase : Phase
  script : List AttemptKind
deriving DecidableEq, Repr

/-- Global configuration of one batch: the tasks, the semaphore's available
permits, and the shared counter with its recorded peak (the counter is an
`Int`: nothing in the code keeps it non-negative). -/
structure EngineConf where
  tasks : List TaskState
  semAvail : Nat
  current : Int
  peak : Int
deriving DecidableEq, Repr

/-- Initial configuration: every task waiting, `asyncio.Semaphore(max(1,
concurrency))` full, counters reset to zero. -/
def initConf (concurrency : Nat) (scripts : List (List AttemptKind)) : EngineConf :=
  { tasks := scripts.map (fun s => ⟨.waiting, s⟩)
    semAvail := max 1 concurrency
    current := 0
    peak := 0 }

/-- One atomic step of a batch, interleaved arbitrarily across tasks. The
acted-on task is isolated as `ts₁ ++ task :: ts₂`. -/
inductive EngineStep : EngineConf → EngineConf → Prop
  | acquireSem (ts₁ ts₂ : List TaskState) (s : List AttemptKind) (n : Nat) (cur pk : Int) :
      EngineStep ⟨ts₁ ++ ⟨.waiting, s⟩ :: ts₂, n + 1, cur, pk⟩
                 ⟨ts₁ ++ ⟨.ready, s⟩ :: ts₂, n, cur, pk⟩
  | startCall (ts₁ ts₂ : List TaskState) (o : AttemptKind) (s : List AttemptKind)
      (n : Nat) (cur pk : Int) (h : o ≠ AttemptKind.extErr) :
      EngineStep ⟨ts₁ ++ ⟨.ready, o :: s⟩ :: ts₂, n, cur, pk⟩
                 ⟨ts₁ ++ ⟨.inflight, o :: s⟩ :: ts₂, n, cur + 1, max pk (cur + 1)⟩
  | extractFail (ts₁ ts₂ : List TaskState) (s : List AttemptKind) (n : Nat) (cur pk : Int) :
      EngineStep ⟨ts₁ ++ ⟨.ready, AttemptKind.extErr :: s⟩ :: ts₂, n, cur, pk⟩
                 ⟨ts₁ ++ ⟨if s.isEmpty then Phase.leaving else Phase.ready, s⟩ :: ts₂, n, cur - 1, pk⟩
  | endCallOk (ts₁ ts₂ : List TaskState) (s : List AttemptKind) (n : Nat) (cur pk : Int) :
      EngineStep ⟨ts₁ ++ ⟨.inflight, AttemptKind.ok :: s⟩ :: ts₂, n, cur, pk⟩
                 ⟨ts₁ ++ ⟨.leaving, s⟩ :: ts₂, n, cur - 1, pk⟩
  | endCallErr (ts₁ ts₂ : List TaskState) (s : List AttemptKind) (n : Nat) (cur pk : Int) :
      EngineStep ⟨ts₁ ++ ⟨.inflight, AttemptKind.err :: s⟩ :: ts₂, n, cur, pk⟩
                 ⟨ts₁ ++ ⟨if s.isEmpty then Phase.leaving else Phase.ready, s⟩ :: ts₂, n, cur - 1, pk⟩
  | exhausted (ts₁ ts₂ : List TaskState) (n : Nat) (cur pk : Int) :
      EngineStep ⟨ts₁ ++ ⟨.ready, ([] : List AttemptKind)⟩ :: ts₂, n, cur, pk⟩
                 ⟨ts₁ ++ ⟨.leaving, ([] : List AttemptKind)⟩ :: ts₂, n, cur, pk⟩
  | releaseSem (ts₁ ts₂ : List TaskState) (s : List AttemptKind) (n : Nat) (cur pk : Int) :
      EngineStep ⟨ts₁ ++ ⟨.leaving, s⟩ :: ts₂, n, cur, pk⟩
                 ⟨ts₁ ++ ⟨.finished, s⟩ :: ts₂, n + 1, cur, pk⟩

/-- Reflexive-transitive closure of `EngineStep`: the states one batch can
reach from a given configuration. -/
inductive EngineReach (c₀ : EngineConf) : EngineConf → Prop
  | refl : EngineReach c₀ c₀
  | tail {c₁ c₂ : EngineConf} : EngineReach c₀ c₁ → EngineStep c₁ c₂ → EngineReach c₀ c₂

/-- True when the task currently holds a semaphore permit. -/
def inSemB (t : TaskState) : Bool :=
  t.phase == .ready || t.phase == .inflight || t.phase == .leaving

/-- True when the task is between tracking start and tracking end. -/
def inflightB (t : TaskState) : Bool := t.phase == .inflight

/-- Inductive invariant of one batch with semaphore size `bound`: the
permits plus the tasks inside the semaphore account for `bound`; the
counter is at most the number of in-flight tasks (unmatched decrements only
push it down); the recorded peak stays within `[0, bound]`. -/
structure EngineInv (bound : Nat) (c : EngineConf) : Prop where
  semEq : c.semAvail + c.tasks.countP inSemB = bound
  curLe : c.current ≤ (c.tasks.countP inflightB : Int)
  peakLe : c.peak ≤ (bound : Int)
  peakNonneg : 0 ≤ c.peak

/-! ### Concrete inputs used by witnesses and counterexamples -/

/-- A fixed "current date" standing for `datetime.now()`. -/
def now0 : PyDate := ⟨2024, 5, 17⟩

/-- Experience from January to June 2019 at Acme. -/
def expA : ExpEntry := ⟨some "01/2019", some "06/2019", some "Dev", some "Acme"⟩

/-- Experience from October 2019 to February 2020 at Beta (4 months after
`expA` ends). -/
def expB : ExpEntry := ⟨some "10/2019", some "02/2020", some "Ing", some "Beta"⟩

/-- Long experience from January 2019 to June 2020 at Acme. -/
def expNestA : ExpEntry := ⟨some "01/2019", some "06/2020", some "Dev", some "Acme"⟩

/-- Experience from January to March 2020 at Beta, nested inside the date
range of `expNestA`. -/
def expNestB : ExpEntry := ⟨some "01/2020", some "03/2020", some "Ing", some "Beta"⟩

/-! ## Theorems -/

/-! ### General lemmas -/

/-- The doubling loop variable in closed form. -/
theorem delayAt_eq (b : ℚ) (k : Nat) : delayAt b k = b * 2 ^ k := by
  induction k with
  | zero => simp [delayAt]
  | succ k ih => rw [delayAt, ih, pow_succ]; ring

/-- Unfolding of the lexicographic date order to a proposition. -/
theorem dateLtB_iff (a b : PyDate) : dateLtB a b = true ↔
    (a.year < b.year ∨ (a.year = b.year ∧
      (a.month < b.month ∨ (a.month = b.month ∧ a.day < b.day)))) := by
  simp [dateLtB]

/-- Unfolding of the lexicographic `<=` to a proposition. -/
theorem dateLeB_iff (a b : PyDate) : dateLeB a b = true ↔
    (a.year < b.year ∨ (a.year = b.year ∧
      (a.month < b.month ∨ (a.month = b.month ∧ a.day ≤ b.day)))) := by
  obtain ⟨ya, ma, da⟩ := a
  obtain ⟨yb, mb, db⟩ := b
  simp only [dateLeB, dateLtB, Bool.or_eq_true, decide_eq_true_eq, beq_iff_eq, PyDate.mk.injEq]
  constructor
  · rintro (h | h) <;> omega
  · intro h; omega

/-- The date order is total. -/
theorem dateLeB_total (a b : PyDate) : dateLeB a b = true ∨ dateLeB b a = true := by
  rw [dateLeB_iff, dateLeB_iff]; omega

/-- The date order is transitive. -/
theorem dateLeB_trans {a b c : PyDate} (h₁ : dateLeB a b = true) (h₂ : dateLeB b c = true) :
    dateLeB a c = true := by
  rw [dateLeB_iff] at h₁ h₂ ⊢; omega

/-- The date order is antisymmetric. -/
theorem dateLeB_antisymm {a b : PyDate} (h₁ : dateLeB a b = true) (h₂ : dateLeB b a = true) :
    a = b := by
  rw [dateLeB_iff] at h₁ h₂
  obtain ⟨ya, ma, da⟩ := a
  obtain ⟨yb, mb, db⟩ := b
  simp only [PyDate.mk.injEq]
  simp only at h₁ h₂
  omega

instance : IsTotal ParsedExp finDescLe :=
  ⟨fun a b => dateLeB_total b.date_fin a.date_fin⟩

instance : IsTrans ParsedExp finDescLe :=
  ⟨fun _ _ _ h₁ h₂ => dateLeB_trans h₂ h₁⟩

/-! ### Retry-loop lemmas -/

/-- When every attempt fails, the must-have retry loop runs through all its
fuel and records the last attempt's error. -/
theorem runOneMustGo_allFail (timeout_s retries : Nat) (decideFn : Nat → MustAttempt)
    (h : ∀ k, (decideFn k).isFail = true) :
    ∀ (fuel attempt : Nat) (le0 : Option String),
      runOneMustGo timeout_s retries decideFn attempt (fuel + 1) le0
        = (mustFailOutcome retries
            (mustErrMsg timeout_s retries (attempt + fuel) (decideFn (attempt + fuel))),
           attempt + fuel + 1) := by
  intro fuel
  induction fuel with
  | zero =>
    intro attempt le0
    cases hd : decideFn attempt with
    | ok a r w => have hf := h attempt; rw [hd] at hf; simp [MustAttempt.isFail] at hf
    | timeout => simp [runOneMustGo, hd, mustErrMsg]
    | exc m => simp [runOneMustGo, hd, mustErrMsg]
  | succ fuel ih =>
    intro attempt le0
    have harith : attempt + 1 + fuel = attempt + (fuel + 1) := by omega
    have step : runOneMustGo timeout_s retries decideFn attempt (fuel + 1 + 1) le0
        = runOneMustGo timeout_s retries decideFn (attempt + 1) (fuel + 1)
            (some (mustErrMsg timeout_s retries attempt (decideFn attempt))) := by
      cases hd : decideFn attempt with
      | ok a r w => have hf := h attempt; rw [hd] at hf; simp [MustAttempt.isFail] at hf
      | timeout => simp only [runOneMustGo, hd]
      | exc m => simp only [runOneMustGo, hd]
    rw [step, ih (attempt + 1), harith]

/-- When every attempt fails, the CV-parsing retry loop runs through all its
fuel and records the last attempt's error. -/
theorem runOneParseGo_allFail (filename : String) (timeout_s retries : Nat)
    (parseFn : Nat → ParseAttempt) (h : ∀ k, (parseFn k).isFail = true) :
    ∀ (fuel attempt : Nat) (le0 : Option String),
      runOneParseGo filename timeout_s retries parseFn attempt (fuel + 1) le0
        = ({ filename := filename, success := false, data := none,
             error := some (parseErrMsg timeout_s retries (attempt + fuel)
               (parseFn (attempt + fuel))) },
           attempt + fuel + 1) := by
  intro fuel
  induction fuel with
  | zero =>
    intro attempt le0
    cases hd : parseFn attempt with
    | ok d => have hf := h attempt; rw [hd] at hf; simp [ParseAttempt.isFail] at hf
    | extractErr m => simp [runOneParseGo, hd, parseErrMsg]
    | timeout => simp [runOneParseGo, hd, parseErrMsg]
    | exc m => simp [runOneParseGo, hd, parseErrMsg]
  | succ fuel ih =>
    intro attempt le0
    have harith : attempt + 1 + fuel = attempt + (fuel + 1) := by omega
    have step : runOneParseGo filename timeout_s retries parseFn attempt (fuel + 1 + 1) le0
        = runOneParseGo filename timeout_s retries parseFn (attempt + 1) (fuel + 1)
            (some (parseErrMsg timeout_s retries attempt (parseFn attempt))) := by
      cases hd : parseFn attempt with
      | ok d => have hf := h attempt; rw [hd] at hf; simp [ParseAttempt.isFail] at hf
      | extractErr m => simp only [runOneParseGo, hd]
      | timeout => simp only [runOneParseGo, hd]
      | exc m => simp only [runOneParseGo, hd]
    rw [step, ih (attempt + 1), harith]

/-- When every attempt fails, the nice-have retry loop runs through all its
fuel and reports the full criteria list as missing. -/
theorem runOneNiceGo_allFail (nice_have_list : List String) (timeout_s retries : Nat)
    (findFn : Nat → NiceAttempt) (h : ∀ k, (findFn k).isFail = true) :
    ∀ (fuel attempt : Nat) (le0 : Option String),
      runOneNiceGo nice_have_list timeout_s retries findFn attempt (fuel + 1) le0
        = ((nice_have_list,
            niceErrMsg timeout_s retries (attempt + fuel) (findFn (attempt + fuel))),
           attempt + fuel + 1) := by
  intro fuel
  induction fuel with
  | zero =>
    intro attempt le0
    cases hd : findFn attempt with
    | ok m => have hf := h attempt; rw [hd] at hf; simp [NiceAttempt.isFail] at hf
    | timeout => simp [runOneNiceGo, hd, niceErrMsg]
    | exc m => simp [runOneNiceGo, hd, niceErrMsg]
  | succ fuel ih =>
    intro attempt le0
    have harith : attempt + 1 + fuel = attempt + (fuel + 1) := by omega
    have step : runOneNiceGo nice_have_list timeout_s retries findFn attempt (fuel + 1 + 1) le0
        = runOneNiceGo nice_have_list timeout_s retries findFn (attempt + 1) (fuel + 1)
            (niceErrMsg timeout_s retries attempt (findFn attempt)) := by
      cases hd : findFn attempt with
      | ok m => have hf := h attempt; rw [hd] at hf; simp [NiceAttempt.isFail] at hf
      | timeout => simp only [runOneNiceGo, hd]
      | exc m => simp only [runOneNiceGo, hd]
    rw [step, ih (attempt + 1), harith]

/-! ### Clamping range lemmas -/

/-- The `[0, 1]` clamp is bounded below by 0. -/
theorem clampQ_nonneg (x : ℚ) : 0 ≤ clampQ 0 1 x := le_max_left 0 _

/-- The `[0, 1]` clamp is bounded above by 1. -/
theorem clampQ_le_one (x : ℚ) : clampQ 0 1 x ≤ 1 :=
  max_le (by norm_num) (min_le_left 1 x)

/-- The nice-have multiplier is strictly positive for a positive malus
factor. -/
theorem calculate_nice_have_malus_pos (n : Nat) (malus_factor : ℚ) (h : 0 < malus_factor) :
    0 < calculate_nice_have_malus n malus_factor := by
  rw [calculate_nice_have_malus]
  split
  · norm_num
  · exact lt_of_lt_of_le (lt_min one_pos (pow_pos h n)) (le_max_right 0 _)

/-- The nice-have multiplier never exceeds 1. -/
theorem calculate_nice_have_malus_le_one (n : Nat) (malus_factor : ℚ) :
    calculate_nice_have_malus n malus_factor ≤ 1 := by
  rw [calculate_nice_have_malus]
  split
  · norm_num
  · exact clampQ_le_one _

/-! ### Claim C8 -/

/-- C8: `calculate_final_score(base, bonus, experience_coef)` returns
`clamp(base * bonus * experience_coef, 0, 1)`, multiplying left to right and
clamping last, for all inputs; in particular
`calculate_final_score(0.8, 0.9025, 1.2) = clamp(0.8*0.9025*1.2, 0, 1) =
0.8664` (and `0.9025 = calculate_nice_have_malus 2 0.95`, the two-missing
nice-have malus of the spec example). Arithmetic is exact (rationals). -/
theorem c8_final_score :
    (∀ base bonus coef : ℚ,
      calculate_final_score base bonus coef = clampQ 0 1 (base * bonus * coef)) ∧
    calculate_final_score 0.8 0.9025 1.2 = clampQ 0 1 (0.8 * 0.9025 * 1.2) ∧
    calculate_final_score 0.8 0.9025 1.2 = 0.8664 ∧
    calculate_nice_have_malus 2 0.95 = 0.9025 := by
  refine ⟨fun _ _ _ => rfl, rfl, ?_, ?_⟩
  · norm_num [calculate_final_score, clampQ]
  · norm_num [calculate_nice_have_malus, clampQ]

/-! ### Claim C1 -/

/-- C1 counterexample: the claim asserts every candidate of the pipeline
output has `experience_coefficient ∈ [1.0, 1.4]`, but the streaming merge
uses the re-ranker's coefficient without clamping: with re-rank output
coefficient 2, the produced result has coefficient 2 > 1.4. -/
theorem c1_counterexample :
    (routerMergeOne ⟨some 0.5, some 1, some []⟩
        ⟨"cv1.pdf", some 2, none, none⟩).coefficient_qualite_experience = 2 ∧
    ¬ ((routerMergeOne ⟨some 0.5, some 1, some []⟩
        ⟨"cv1.pdf", some 2, none, none⟩).coefficient_qualite_experience ≤ 1.4) := by
  constructor
  · rfl
  · norm_num [routerMergeOne]

/-- C1 (amended): every candidate produced by the streaming merge satisfies
`score_final = clamp(score_base * bonus * experience_coefficient, 0, 1)`
with `score_final ∈ [0, 1]`; candidates built by `build_matching_result`
additionally have `bonus ∈ (0, 1]` (for a malus factor in `(0, 1]`) and
`experience_coefficient ∈ [1.0, 1.4]`. The streaming merge itself leaves
`experience_coefficient` (and `score_base`) unclamped. -/
theorem c1_score_invariant (original : ScoredCvData) (cvResult : RerankedCvData)
    (cv : String) (score_base : ℚ) (nice_have_manquants : List String)
    (malus_factor coefficient_experience : ℚ)
    (commentaire appreciation : Option String)
    (hm0 : 0 < malus_factor) :
    ((routerMergeOne original cvResult).score_final
       = clampQ 0 1 ((routerMergeOne original cvResult).score_base
           * (routerMergeOne original cvResult).bonus_nice_have_multiplicateur
           * (routerMergeOne original cvResult).coefficient_qualite_experience) ∧
     0 ≤ (routerMergeOne original cvResult).score_final ∧
     (routerMergeOne original cvResult).score_final ≤ 1) ∧
    ((build_matching_result cv score_base nice_have_manquants malus_factor
        coefficient_experience commentaire appreciation).score_final
       = clampQ 0 1 ((build_matching_result cv score_base nice_have_manquants malus_factor
             coefficient_experience commentaire appreciation).score_base
           * (build_matching_result cv score_base nice_have_manquants malus_factor
             coefficient_experience commentaire appreciation).bonus_nice_have_multiplicateur
           * (build_matching_result cv score_base nice_have_manquants malus_factor
             coefficient_experience commentaire appreciation).coefficient_qualite_experience) ∧
     0 < (build_matching_result cv score_base nice_have_manquants malus_factor
        coefficient_experience commentaire appreciation).bonus_nice_have_multiplicateur ∧
     (build_matching_result cv score_base nice_have_manquants malus_factor
        coefficient_experience commentaire appreciation).bonus_nice_have_multiplicateur ≤ 1 ∧
     1 ≤ (build_matching_result cv score_base nice_have_manquants malus_factor
        coefficient_experience commentaire appreciation).coefficient_qualite_experience ∧
     (build_matching_result cv score_base nice_have_manquants malus_factor
        coefficient_experience commentaire appreciation).coefficient_qualite_experience ≤ 1.4 ∧
     0 ≤ (build_matching_result cv score_base nice_have_manquants malus_factor
        coefficient_experience commentaire appreciation).score_final ∧
     (build_matching_result cv score_base nice_have_manquants malus_factor
        coefficient_experience commentaire appreciation).score_final ≤ 1) := by
  refine ⟨⟨rfl, clampQ_nonneg _, clampQ_le_one _⟩,
    rfl, calculate_nice_have_malus_pos _ _ hm0, calculate_nice_have_malus_le_one _ _,
    le_max_left 1 _, max_le (by norm_num) (min_le_left _ _), clampQ_nonneg _, clampQ_le_one _⟩

/-- C1 witness: the amended invariant instantiated at a concrete candidate. -/
theorem c1_score_invariant_witness :
    (0 : ℚ) < 0.95 ∧
    (((routerMergeOne ⟨some 0.5, some 0.9025, some ["Docker"]⟩
        ⟨"cv1.pdf", some 1.2, none, none⟩).score_final
       = clampQ 0 1 ((routerMergeOne ⟨some 0.5, some 0.9025, some ["Docker"]⟩
           ⟨"cv1.pdf", some 1.2, none, none⟩).score_base
           * (routerMergeOne ⟨some 0.5, some 0.9025, some ["Docker"]⟩
           ⟨"cv1.pdf", some 1.2, none, none⟩).bonus_nice_have_multiplicateur
           * (routerMergeOne ⟨some 0.5, some 0.9025, some ["Docker"]⟩
           ⟨"cv1.pdf", some 1.2, none, none⟩).coefficient_qualite_experience) ∧
     0 ≤ (routerMergeOne ⟨some 0.5, some 0.9025, some ["Docker"]⟩
           ⟨"cv1.pdf", some 1.2, none, none⟩).score_final ∧
     (routerMergeOne ⟨some 0.5, some 0.9025, some ["Docker"]⟩
           ⟨"cv1.pdf", some 1.2, none, none⟩).score_final ≤ 1) ∧
    ((build_matching_result "cv1.pdf" 0.8 ["Docker", "K8s"] 0.95 1.2 none none).score_final
       = clampQ 0 1 ((build_matching_result "cv1.pdf" 0.8 ["Docker", "K8s"] 0.95 1.2 none
             none).score_base
           * (build_matching_result "cv1.pdf" 0.8 ["Docker", "K8s"] 0.95 1.2 none
             none).bonus_nice_have_multiplicateur
           * (build_matching_result "cv1.pdf" 0.8 ["Docker", "K8s"] 0.95 1.2 none
             none).coefficient_qualite_experience) ∧
     0 < (build_matching_result "cv1.pdf" 0.8 ["Docker", "K8s"] 0.95 1.2 none
        none).bonus_nice_have_multiplicateur ∧
     (build_matching_result "cv1.pdf" 0.8 ["Docker", "K8s"] 0.95 1.2 none
        none).bonus_nice_have_multiplicateur ≤ 1 ∧
     1 ≤ (build_matching_result "cv1.pdf" 0.8 ["Docker", "K8s"] 0.95 1.2 none
        none).coefficient_qualite_experience ∧
     (build_matching_result "cv1.pdf" 0.8 ["Docker", "K8s"] 0.95 1.2 none
        none).coefficient_qualite_experience ≤ 1.4 ∧
     0 ≤ (build_matching_result "cv1.pdf" 0.8 ["Docker", "K8s"] 0.95 1.2 none
        none).score_final ∧
     (build_matching_result "cv1.pdf" 0.8 ["Docker", "K8s"] 0.95 1.2 none
        none).score_final ≤ 1)) :=
  ⟨by norm_num,
   c1_score_invariant ⟨some 0.5, some 0.9025, some ["Docker"]⟩ ⟨"cv1.pdf", some 1.2, none, none⟩
     "cv1.pdf" 0.8 ["Docker", "K8s"] 0.95 1.2 none none (by norm_num)⟩

/-! ### Claim C2 -/

/-- C2 counterexample: with `backoff = 1`, `retries = 2`, attempt index
`k = 1 < retries` and jitter fraction `u = 1/2` (a possible draw of
`random()`), the slept delay is `2 + (2/4) * (1/2) = 9/4`, which is not
strictly below the claimed bound `backoff * 2^k + backoff/4 = 9/4`: the
jitter is drawn from `uniform(0, delay/4)` with `delay = backoff * 2^k`,
not from `uniform(0, backoff/4)`. -/
theorem c2_counterexample :
    (0 : ℚ) < 1 ∧ (1 : Nat) ≤ 2 ∧ (1 : Nat) < 2 ∧ (0 : ℚ) ≤ 1 / 2 ∧ (1 / 2 : ℚ) < 1 ∧
    ¬ (backoffSleep 1 1 (1 / 2) < 1 * 2 ^ 1 + 1 / 4) := by
  norm_num [backoffSleep, delayAt, uniformDraw]

/-- C2 (amended): for every `backoff > 0`, attempt index `k` and jitter
fraction `u ∈ [0, 1)`, the slept delay lies in
`[backoff * 2^k, backoff * 2^k + (backoff * 2^k)/4)` — the jitter scales
with the current doubled delay, not with the initial backoff. -/
theorem c2_backoff_bounds (backoff_s : ℚ) (hb : 0 < backoff_s) (k : Nat) (u : ℚ)
    (hu0 : 0 ≤ u) (hu1 : u < 1) :
    backoff_s * 2 ^ k ≤ backoffSleep backoff_s k u ∧
    backoffSleep backoff_s k u < backoff_s * 2 ^ k + (backoff_s * 2 ^ k) / 4 := by
  have hd : (0 : ℚ) < backoff_s * 2 ^ k := by positivity
  rw [backoffSleep, uniformDraw, delayAt_eq]
  constructor
  · nlinarith
  · nlinarith

/-- C2 witness: the amended bounds instantiated at `backoff = 2`, `k = 3`,
`u = 1/3`. -/
theorem c2_backoff_bounds_witness :
    (0 : ℚ) < 2 ∧ (0 : ℚ) ≤ 1 / 3 ∧ (1 / 3 : ℚ) < 1 ∧
    (2 * 2 ^ 3 ≤ backoffSleep 2 3 (1 / 3) ∧
     backoffSleep 2 3 (1 / 3) < 2 * 2 ^ 3 + (2 * 2 ^ 3) / 4) :=
  ⟨by norm_num, by norm_num, by norm_num,
   c2_backoff_bounds 2 (by norm_num) 3 (1 / 3) (by norm_num) (by norm_num)⟩

/-! ### Claim C3 -/

/-- C3: an item whose processing function fails on every call is attempted
exactly `retries + 1` times by both retrying invokers, and the result is
returned as a failure value (accepted/success flag false, the last
attempt's error recorded in the rationale/error field); the invokers are
total functions, so no exception reaches their caller. -/
theorem c3_exhausts_retries (timeout_s retries : Nat) (filename : String)
    (decideFn : Nat → MustAttempt) (parseFn : Nat → ParseAttempt)
    (hm : ∀ k, (decideFn k).isFail = true) (hp : ∀ k, (parseFn k).isFail = true) :
    ((runOneMust timeout_s retries decideFn).2 = retries + 1 ∧
      (runOneMust timeout_s retries decideFn).1
        = mustFailOutcome retries (mustErrMsg timeout_s retries retries (decideFn retries)) ∧
      (runOneMust timeout_s retries decideFn).1.accepted = false) ∧
    ((runOneParse filename timeout_s retries parseFn).2 = retries + 1 ∧
      (runOneParse filename timeout_s retries parseFn).1
        = { filename := filename, success := false, data := none,
            error := some (parseErrMsg timeout_s retries retries (parseFn retries)) } ∧
      (runOneParse filename timeout_s retries parseFn).1.success = false) := by
  have h1 := runOneMustGo_allFail timeout_s retries decideFn hm retries 0 none
  have h2 := runOneParseGo_allFail filename timeout_s retries parseFn hp retries 0 none
  simp only [Nat.zero_add] at h1 h2
  rw [runOneMust, runOneParse, h1, h2]
  exact ⟨⟨rfl, rfl, rfl⟩, ⟨rfl, rfl, rfl⟩⟩

/-- C3 witness: a decide function that always raises and a parse oracle that
always times out, with `retries = 2`, give exactly 3 attempts and failure
values. -/
theorem c3_exhausts_retries_witness :
    (∀ k, ((fun _ : Nat => MustAttempt.exc "boom") k).isFail = true) ∧
    (∀ k, ((fun _ : Nat => ParseAttempt.timeout) k).isFail = true) ∧
    (((runOneMust 20 2 (fun _ : Nat => MustAttempt.exc "boom")).2 = 2 + 1 ∧
      (runOneMust 20 2 (fun _ : Nat => MustAttempt.exc "boom")).1
        = mustFailOutcome 2 (mustErrMsg 20 2 2 ((fun _ : Nat => MustAttempt.exc "boom") 2)) ∧
      (runOneMust 20 2 (fun _ : Nat => MustAttempt.exc "boom")).1.accepted = false) ∧
     ((runOneParse "cv.pdf" 20 2 (fun _ : Nat => ParseAttempt.timeout)).2 = 2 + 1 ∧
      (runOneParse "cv.pdf" 20 2 (fun _ : Nat => ParseAttempt.timeout)).1
        = { filename := "cv.pdf", success := false, data := none,
            error := some (parseErrMsg 20 2 2 ((fun _ : Nat => ParseAttempt.timeout) 2)) } ∧
      (runOneParse "cv.pdf" 20 2 (fun _ : Nat => ParseAttempt.timeout)).1.success = false)) :=
  ⟨fun _ => rfl, fun _ => rfl,
   c3_exhausts_retries 20 2 "cv.pdf" (fun _ : Nat => MustAttempt.exc "boom")
     (fun _ : Nat => ParseAttempt.timeout) (fun _ => rfl) (fun _ => rfl)⟩

/-! ### Claim C7 -/

/-- C7: for every criteria list, a CV whose nice-have detection call fails
(raises or times out) on all `retries + 1` attempts gets the entire input
criteria list recorded as its missing nice-haves — in particular a
non-empty criteria list never yields an empty missing list. -/
theorem c7_all_missing (nice_have_list : List String) (timeout_s retries : Nat)
    (findFn : Nat → NiceAttempt) (h : ∀ k, (findFn k).isFail = true) :
    ((runOneNice nice_have_list timeout_s retries findFn).1).1 = nice_have_list ∧
    (nice_have_list ≠ [] →
      ((runOneNice nice_have_list timeout_s retries findFn).1).1 ≠ []) ∧
    (runOneNice nice_have_list timeout_s retries findFn).2 = retries + 1 := by
  have h1 := runOneNiceGo_allFail nice_have_list timeout_s retries findFn h retries 0 none
  simp only [Nat.zero_add] at h1
  rw [runOneNice, h1]
  exact ⟨rfl, fun hne => hne, rfl⟩

/-- C7 witness: two criteria, a find function that always raises,
`retries = 1`: both criteria are reported missing after 2 attempts. -/
theorem c7_all_missing_witness :
    (∀ k, ((fun _ : Nat => NiceAttempt.exc "down") k).isFail = true) ∧
    (((runOneNice ["Docker", "K8s"] 30 1 (fun _ : Nat => NiceAttempt.exc "down")).1).1
        = ["Docker", "K8s"] ∧
     (["Docker", "K8s"] ≠ ([] : List String) →
       ((runOneNice ["Docker", "K8s"] 30 1 (fun _ : Nat => NiceAttempt.exc "down")).1).1 ≠ []) ∧
     (runOneNice ["Docker", "K8s"] 30 1 (fun _ : Nat => NiceAttempt.exc "down")).2 = 1 + 1) :=
  ⟨fun _ => rfl,
   c7_all_missing ["Docker", "K8s"] 30 1 (fun _ : Nat => NiceAttempt.exc "down") (fun _ => rfl)⟩

/-! ### Claim C6 -/

/-- C6 counterexample: the must-have entry point called with an empty CV
list but a non-empty criteria list does return an empty result and makes no
item-processing call, but its trace shows the tracking reset, the
`RateLimiter` construction and the pool construction all happen — the
early return only guards the no-criteria case, not the empty-item case. -/
theorem c6_counterexample :
    _is_empty ["Python"] = false ∧
    (filter_cvs_by_must_have [] ["Python"] 20 2 (fun _ _ => .exc "down") []).2
      = [.trackingReset, .limiterCtor, .poolCtor] ∧
    EngEvent.limiterCtor ∈
      (filter_cvs_by_must_have [] ["Python"] 20 2 (fun _ _ => .exc "down") []).2 ∧
    (filter_cvs_by_must_have [] ["Python"] 20 2 (fun _ _ => .exc "down") []).1
      = ([], [], []) := by
  refine ⟨by decide, by decide, by decide, by decide⟩

/-- C6 (amended): with an empty item list, the CV-parsing entry point
returns the zero-count summary immediately with an empty trace (no
RateLimiter, pool or item call), and the must-have entry point with
non-empty criteria returns an empty result and never invokes the
item-processing function — but it does construct the RateLimiter and the
worker pool. -/
theorem c6_empty_batch (timeout_s retries : Nat)
    (parseFn : Nat → Nat → ParseAttempt) (decideFn : Nat → Nat → MustAttempt)
    (completionOrder : List Nat) (must_haves : List String)
    (hmh : _is_empty must_haves = false) :
    parse_cvs_parallel [] timeout_s retries parseFn completionOrder = ((0, 0, 0, []), []) ∧
    (filter_cvs_by_must_have [] must_haves timeout_s retries decideFn completionOrder).1
       = ([], [], []) ∧
    (filter_cvs_by_must_have [] must_haves timeout_s retries decideFn completionOrder).2
       = [.trackingReset, .limiterCtor, .poolCtor] ∧
    ∀ i k, EngEvent.itemCall i k ∉
        (filter_cvs_by_must_have [] must_haves timeout_s retries decideFn completionOrder).2 := by
  have hcoll : ∀ (o : List Nat),
      o.filterMap (fun i => (([] : List (String × MustOutcome × Nat)))[i]?) = [] := by
    intro o; induction o with
    | nil => rfl
    | cons a t ih => simp [List.filterMap, ih]
  refine ⟨rfl, ?_, ?_, ?_⟩
  · simp [filter_cvs_by_must_have, hmh, hcoll]
  · simp [filter_cvs_by_must_have, hmh]
  · intro i k
    simp [filter_cvs_by_must_have, hmh]

/-- C6 witness: the amended statement instantiated with one non-empty
criteria list and concrete parameters. -/
theorem c6_empty_batch_witness :
    _is_empty ["Python"] = false ∧
    (parse_cvs_parallel [] 20 2 (fun _ _ => ParseAttempt.timeout) [0, 1]
        = ((0, 0, 0, []), []) ∧
     (filter_cvs_by_must_have [] ["Python"] 20 2 (fun _ _ => MustAttempt.exc "down") [0, 1]).1
        = ([], [], []) ∧
     (filter_cvs_by_must_have [] ["Python"] 20 2 (fun _ _ => MustAttempt.exc "down") [0, 1]).2
        = [.trackingReset, .limiterCtor, .poolCtor] ∧
     ∀ i k, EngEvent.itemCall i k ∉
        (filter_cvs_by_must_have [] ["Python"] 20 2 (fun _ _ => MustAttempt.exc "down") [0, 1]).2) :=
  ⟨by decide,
   c6_empty_batch 20 2 (fun _ _ => ParseAttempt.timeout) (fun _ _ => MustAttempt.exc "down")
     [0, 1] ["Python"] (by decide)⟩

/-! ### Claims C4 and C5: experience analyser -/

/-- Stripping preserves the end date. -/
theorem stripIdx_date_fin (p : ParsedExp) : (stripIdx p).date_fin = p.date_fin := rfl

/-- The index-erased parsed list is position-independent. -/
theorem parsedExpsAux_map_strip (now : PyDate) :
    ∀ (i : Nat) (l : List ExpEntry),
      (parsedExpsAux now i l).map stripIdx = l.filterMap (parseEntry now) := by
  intro i l
  induction l generalizing i with
  | nil => rfl
  | cons e rest ih =>
    rcases h1 : parse_date now (e.date_debut.getD "") with _ | dd <;>
      rcases h2 : parse_date now (e.date_fin.getD "") with _ | df <;>
        simp [parsedExpsAux, parseEntry, h1, h2, stripIdx, ih]

/-- Two sorted lists (end date descending) that are permutations of each
other and have pairwise distinct end dates are equal. -/
theorem sorted_perm_nodup_eq :
    ∀ (l₁ l₂ : List ParsedExp), l₁.Perm l₂ →
      l₁.Pairwise finDescLe → l₂.Pairwise finDescLe →
      (l₁.map (fun p => p.date_fin)).Nodup → l₁ = l₂ := by
  intro l₁
  induction l₁ with
  | nil => intro l₂ hp _ _ _; exact (hp.nil_eq).symm ▸ rfl
  | cons a t ih =>
    intro l₂ hp hs₁ hs₂ hnd
    cases l₂ with
    | nil => exact absurd hp.symm.nil_eq (by simp)
    | cons b t₂ =>
      have hab : a = b := by
        by_contra hne
        have ha2 : a ∈ b :: t₂ := hp.mem_iff.mp (List.mem_cons_self a t)
        have hb1 : b ∈ a :: t := hp.mem_iff.mpr (List.mem_cons_self b t₂)
        rcases List.mem_cons.mp ha2 with h1 | h1
        · exact hne h1
        rcases List.mem_cons.mp hb1 with h2 | h2
        · exact hne h2.symm
        have hfab : finDescLe b a := (List.pairwise_cons.mp hs₂).1 a h1
        have hfba : finDescLe a b := (List.pairwise_cons.mp hs₁).1 b h2
        have hfin : a.date_fin = b.date_fin := dateLeB_antisymm hfab hfba
        have hmem : a.date_fin ∈ t.map (fun p => p.date_fin) :=
          List.mem_map.mpr ⟨b, h2, hfin.symm⟩
        have hnd' := hnd
        rw [List.map_cons] at hnd'
        exact (List.nodup_cons.mp hnd').1 hmem
      subst hab
      have ht : t.Perm t₂ := hp.cons_inv
      have hnd' := hnd
      rw [List.map_cons] at hnd'
      have := ih t₂ ht (List.pairwise_cons.mp hs₁).2 (List.pairwise_cons.mp hs₂).2
        (List.nodup_cons.mp hnd').2
      rw [this]

/-- Component equalities from an index-erasure equality. -/
theorem stripIdx_eq_iff {p q : ParsedExp} (h : stripIdx p = stripIdx q) :
    p.poste = q.poste ∧ p.entreprise = q.entreprise ∧
    p.date_debut = q.date_debut ∧ p.date_fin = q.date_fin := by
  obtain ⟨i, po, en, dd, df⟩ := p
  obtain ⟨i', po', en', dd', df'⟩ := q
  simp [stripIdx] at h
  simp [h]

/-- The gap loop only reads index-independent data, apart from the labels
dropped by `gapData`. -/
theorem gapsOf_respects_strip :
    ∀ (l₁ l₂ : List ParsedExp), l₁.map stripIdx = l₂.map stripIdx →
      (gapsOf l₁).map gapData = (gapsOf l₂).map gapData := by
  intro l₁
  induction l₁ with
  | nil =>
    intro l₂ h
    cases l₂ with
    | nil => rfl
    | cons b t₂ => simp at h
  | cons a t ih =>
    intro l₂ h
    cases l₂ with
    | nil => simp at h
    | cons b t₂ =>
      simp only [List.map_cons, List.cons.injEq] at h
      obtain ⟨hab, ht⟩ := h
      cases t with
      | nil =>
        cases t₂ with
        | nil => rfl
        | cons => simp at ht
      | cons a2 t' =>
        cases t₂ with
        | nil => simp at ht
        | cons b2 t₂' =>
          have ht' := ht
          simp only [List.map_cons, List.cons.injEq] at ht'
          obtain ⟨hab2, _⟩ := ht'
          obtain ⟨_, _, hdda, hdfa⟩ := stripIdx_eq_iff hab
          obtain ⟨_, _, hddb, hdfb⟩ := stripIdx_eq_iff hab2
          rw [gapsOf, gapsOf, List.map_append, List.map_append, ih (b2 :: t₂') ht]
          congr 1
          rw [hdfb, hdda]
          split
          · simp [gapData, mkGap, hdfb, hdda]
          · rfl

/-- One overlap-pair test only reads index-independent data, apart from the
labels dropped by `overlapData`. -/
theorem mkOverlapPair_respects_strip {a b x y : ParsedExp}
    (hab : stripIdx a = stripIdx b) (hxy : stripIdx x = stripIdx y) :
    (mkOverlapPair a x).map overlapData = (mkOverlapPair b y).map overlapData := by
  obtain ⟨hpoab, henab, hddab, hdfab⟩ := stripIdx_eq_iff hab
  obtain ⟨hpoxy, henxy, hddxy, hdfxy⟩ := stripIdx_eq_iff hxy
  rw [mkOverlapPair, mkOverlapPair, hddab, hdfab, hddxy, hdfxy, henab, henxy]
  split
  · simp only [apply_ite (Option.map overlapData)]
    split <;> rfl
  · rfl

/-- The overlap double loop only reads index-independent data, apart from
the labels dropped by `overlapData`. -/
theorem overlapsOf_respects_strip :
    ∀ (l₁ l₂ : List ParsedExp), l₁.map stripIdx = l₂.map stripIdx →
      (overlapsOf l₁).map overlapData = (overlapsOf l₂).map overlapData := by
  intro l₁
  induction l₁ with
  | nil =>
    intro l₂ h
    cases l₂ with
    | nil => rfl
    | cons b t₂ => simp at h
  | cons a t ih =>
    intro l₂ h
    cases l₂ with
    | nil => simp at h
    | cons b t₂ =>
      simp only [List.map_cons, List.cons.injEq] at h
      obtain ⟨hab, ht⟩ := h
      rw [overlapsOf, overlapsOf, List.map_append, List.map_append, ih t₂ ht]
      congr 1
      rw [List.map_filterMap, List.map_filterMap]
      clear ih
      induction t generalizing t₂ with
      | nil =>
        cases t₂ with
        | nil => rfl
        | cons => simp at ht
      | cons x t' ih' =>
        cases t₂ with
        | nil => simp at ht
        | cons y t₂' =>
          simp only [List.map_cons, List.cons.injEq] at ht
          obtain ⟨hxy, ht'⟩ := ht
          rw [List.filterMap_cons, List.filterMap_cons,
            mkOverlapPair_respects_strip hab hxy]
          cases hmk : (mkOverlapPair b y).map overlapData with
          | none => exact ih' t₂' ht'
          | some v => rw [ih' t₂' ht']

/-- Every emitted Gap comes from an adjacent pair of the sorted list whose
absolute month distance is at least 3. -/
theorem gapsOf_mem :
    ∀ (l : List ParsedExp) (g : Gap), g ∈ gapsOf l →
      ∃ pre post cur nxt, l = pre ++ cur :: nxt :: post ∧
        3 ≤ months_between nxt.date_fin cur.date_debut ∧ g = mkGap cur nxt := by
  intro l
  induction l with
  | nil => intro g hg; simp [gapsOf] at hg
  | cons a t ih =>
    cases t with
    | nil => intro g hg; simp [gapsOf] at hg
    | cons b t' =>
      intro g hg
      rw [gapsOf] at hg
      rcases List.mem_append.mp hg with h | h
      · by_cases hc : 3 ≤ months_between b.date_fin a.date_debut
        · rw [if_pos hc] at h
          rcases List.mem_singleton.mp h with rfl
          exact ⟨[], t', a, b, rfl, hc, rfl⟩
        · rw [if_neg hc] at h
          simp at h
      · obtain ⟨pre, post, cur, nxt, heq, hge, hgg⟩ := ih g h
        exact ⟨a :: pre, post, cur, nxt, by rw [heq]; rfl, hge, hgg⟩

theorem c5_gap_duration (now : PyDate) (experiences : List ExpEntry) (g : Gap)
    (hg : g ∈ (detect_gaps_and_overlaps now experiences).gappes) :
    3 ≤ g.duration_months ∧
    ∃ pre post cur nxt,
      sortByFinDesc (parsedExpsAux now 0 experiences) = pre ++ cur :: nxt :: post ∧
      g = mkGap cur nxt ∧
      g.duration_months = months_between nxt.date_fin cur.date_debut := by
  obtain ⟨pre, post, cur, nxt, heq, hge, hgg⟩ :=
    gapsOf_mem (sortByFinDesc (parsedExpsAux now 0 experiences)) g hg
  subst hgg
  exact ⟨hge, pre, post, cur, nxt, heq, rfl, rfl⟩

theorem c4_perm_invariant (now : PyDate) (l₁ l₂ : List ExpEntry) (hperm : l₁.Perm l₂)
    (hnd : ((l₁.filterMap (parseEntry now)).map (fun p => p.date_fin)).Nodup) :
    ((detect_gaps_and_overlaps now l₁).gappes.map gapData
      = (detect_gaps_and_overlaps now l₂).gappes.map gapData) ∧
    ((detect_gaps_and_overlaps now l₁).overlaps.map overlapData
      = (detect_gaps_and_overlaps now l₂).overlaps.map overlapData) := by
  have hp₁ : (sortByFinDesc (parsedExpsAux now 0 l₁)).Perm (parsedExpsAux now 0 l₁) :=
    List.perm_insertionSort finDescLe _
  have hp₂ : (sortByFinDesc (parsedExpsAux now 0 l₂)).Perm (parsedExpsAux now 0 l₂) :=
    List.perm_insertionSort finDescLe _
  have hmaps : ((sortByFinDesc (parsedExpsAux now 0 l₁)).map stripIdx).Perm
      ((sortByFinDesc (parsedExpsAux now 0 l₂)).map stripIdx) := by
    refine ((hp₁.map stripIdx).trans ?_).trans (hp₂.map stripIdx).symm
    rw [parsedExpsAux_map_strip, parsedExpsAux_map_strip]
    exact hperm.filterMap (parseEntry now)
  have hsorted₁ : ((sortByFinDesc (parsedExpsAux now 0 l₁)).map stripIdx).Pairwise finDescLe := by
    have := List.sorted_insertionSort finDescLe (parsedExpsAux now 0 l₁)
    exact List.pairwise_map.mpr (this.imp (fun h => h))
  have hsorted₂ : ((sortByFinDesc (parsedExpsAux now 0 l₂)).map stripIdx).Pairwise finDescLe := by
    have := List.sorted_insertionSort finDescLe (parsedExpsAux now 0 l₂)
    exact List.pairwise_map.mpr (this.imp (fun h => h))
  have hndkeys : (((sortByFinDesc (parsedExpsAux now 0 l₁)).map stripIdx).map
      (fun p => p.date_fin)).Nodup := by
    have hmapeq : ((sortByFinDesc (parsedExpsAux now 0 l₁)).map stripIdx).map
        (fun p => p.date_fin) = (sortByFinDesc (parsedExpsAux now 0 l₁)).map
        (fun p => p.date_fin) := by
      rw [List.map_map]; rfl
    rw [hmapeq]
    have hpfin : ((sortByFinDesc (parsedExpsAux now 0 l₁)).map (fun p => p.date_fin)).Perm
        ((l₁.filterMap (parseEntry now)).map (fun p => p.date_fin)) := by
      have h1 := hp₁.map (fun p => p.date_fin)
      have h2 : (parsedExpsAux now 0 l₁).map (fun p => p.date_fin)
          = (l₁.filterMap (parseEntry now)).map (fun p => p.date_fin) := by
        rw [← parsedExpsAux_map_strip now 0 l₁, List.map_map]; rfl
      rw [h2] at h1
      exact h1
    exact hpfin.symm.nodup hnd
  have hkey : (sortByFinDesc (parsedExpsAux now 0 l₁)).map stripIdx
      = (sortByFinDesc (parsedExpsAux now 0 l₂)).map stripIdx :=
    sorted_perm_nodup_eq _ _ hmaps hsorted₁ hsorted₂ hndkeys
  exact ⟨gapsOf_respects_strip _ _ hkey, overlapsOf_respects_strip _ _ hkey⟩

/-- C4 counterexample: `[expA, expB]` and its permutation `[expB, expA]`
yield different Flags — the `between` labels embed the entries' original
list positions (`Expérience #1` / `Expérience #2` swap). -/
theorem c4_counterexample :
    [expA, expB].Perm [expB, expA] ∧
    detect_gaps_and_overlaps now0 [expA, expB]
      ≠ detect_gaps_and_overlaps now0 [expB, expA] :=
  ⟨List.Perm.swap expB expA [], by decide⟩

/-- C4 witness: the amended invariance instantiated at the two-entry swap
(the parsed end dates 2019-06 and 2020-02 are distinct). -/
theorem c4_perm_invariant_witness :
    [expA, expB].Perm [expB, expA] ∧
    (([expA, expB].filterMap (parseEntry now0)).map (fun p => p.date_fin)).Nodup ∧
    (((detect_gaps_and_overlaps now0 [expA, expB]).gappes.map gapData
       = (detect_gaps_and_overlaps now0 [expB, expA]).gappes.map gapData) ∧
     ((detect_gaps_and_overlaps now0 [expA, expB]).overlaps.map overlapData
       = (detect_gaps_and_overlaps now0 [expB, expA]).overlaps.map overlapData)) :=
  ⟨List.Perm.swap expB expA [], by decide,
   c4_perm_invariant now0 [expA, expB] [expB, expA] (List.Perm.swap expB expA []) (by decide)⟩

/-- C5 counterexample: `expNestB`'s date range (2020-01 to 2020-03) nests
inside `expNestA`'s (2019-01 to 2020-06), yet a Gap is emitted:
`months_between` takes an absolute value, so the later entry's start being
14 months BEFORE the earlier entry's end still passes the `>= 3` test. -/
theorem c5_counterexample :
    parse_date now0 "01/2019" = some ⟨2019, 1, 1⟩ ∧
    parse_date now0 "06/2020" = some ⟨2020, 6, 1⟩ ∧
    parse_date now0 "01/2020" = some ⟨2020, 1, 1⟩ ∧
    parse_date now0 "03/2020" = some ⟨2020, 3, 1⟩ ∧
    dateLeB ⟨2019, 1, 1⟩ ⟨2020, 1, 1⟩ = true ∧
    dateLeB ⟨2020, 3, 1⟩ ⟨2020, 6, 1⟩ = true ∧
    (detect_gaps_and_overlaps now0 [expNestA, expNestB]).gappes.map gapData
      = [("2020-03 → 2019-01", 14)] ∧
    (detect_gaps_and_overlaps now0 [expNestA, expNestB]).gappes ≠ [] := by
  refine ⟨by decide, by decide, by decide, by decide, by decide, by decide, by decide, by decide⟩

/-- C5 witness: the amended statement applied to the concrete Gap that
`[expA, expB]` produces. -/
theorem c5_gap_duration_witness :
    ((⟨"2019-06 → 2019-10", 4, "Expérience #1 (Acme) et Expérience #2 (Beta)", none⟩ : Gap)
        ∈ (detect_gaps_and_overlaps now0 [expA, expB]).gappes) ∧
    (3 ≤ (⟨"2019-06 → 2019-10", 4,
          "Expérience #1 (Acme) et Expérience #2 (Beta)", none⟩ : Gap).duration_months ∧
     ∃ pre post cur nxt,
       sortByFinDesc (parsedExpsAux now0 0 [expA, expB]) = pre ++ cur :: nxt :: post ∧
       (⟨"2019-06 → 2019-10", 4,
          "Expérience #1 (Acme) et Expérience #2 (Beta)", none⟩ : Gap) = mkGap cur nxt ∧
       (⟨"2019-06 → 2019-10", 4,
          "Expérience #1 (Acme) et Expérience #2 (Beta)", none⟩ : Gap).duration_months
         = months_between nxt.date_fin cur.date_debut) :=
  ⟨by decide, c5_gap_duration now0 [expA, expB] _ (by decide)⟩

/-! ### Claims C9 and C10: concurrency orchestration -/

/-- Unfolding lemma for semaphore occupancy. -/
theorem inSemB_mk (p : Phase) (s : List AttemptKind) :
    inSemB ⟨p, s⟩ = (p == .ready || p == .inflight || p == .leaving) := rfl

/-- Unfolding lemma for the in-flight test. -/
theorem inflightB_mk (p : Phase) (s : List AttemptKind) : inflightB ⟨p, s⟩ = (p == .inflight) := rfl

/-- Tasks between tracking start and end all hold a semaphore permit. -/
theorem countP_inflight_le_inSem (ts : List TaskState) :
    ts.countP inflightB ≤ ts.countP inSemB := by
  apply List.countP_mono_left
  intro t _ ht
  obtain ⟨p, s⟩ := t
  cases p <;> simp_all [inflightB, inSemB]

/-- The invariant holds in the initial configuration. -/
theorem engineInv_init (concurrency : Nat) (scripts : List (List AttemptKind)) :
    EngineInv (max 1 concurrency) (initConf concurrency scripts) := by
  constructor
  · show max 1 concurrency + (scripts.map (fun s => (⟨.waiting, s⟩ : TaskState))).countP inSemB
      = max 1 concurrency
    rw [List.countP_map]
    have : ∀ s ∈ scripts, ¬ (inSemB ∘ fun s => (⟨.waiting, s⟩ : TaskState)) s := by
      intro s _ h
      simp [inSemB] at h
    rw [List.countP_eq_zero.mpr this]
    omega
  · exact Int.natCast_nonneg _
  · exact Int.natCast_nonneg _
  · exact le_refl 0

theorem inSemB_waiting (s : List AttemptKind) : inSemB ⟨.waiting, s⟩ = false := rfl
theorem inSemB_ready (s : List AttemptKind) : inSemB ⟨.ready, s⟩ = true := rfl
theorem inSemB_inflight (s : List AttemptKind) : inSemB ⟨.inflight, s⟩ = true := rfl
theorem inSemB_leaving (s : List AttemptKind) : inSemB ⟨.leaving, s⟩ = true := rfl
theorem inSemB_finished (s : List AttemptKind) : inSemB ⟨.finished, s⟩ = false := rfl
theorem inflightB_waiting (s : List AttemptKind) : inflightB ⟨.waiting, s⟩ = false := rfl
theorem inflightB_ready (s : List AttemptKind) : inflightB ⟨.ready, s⟩ = false := rfl
theorem inflightB_inflight (s : List AttemptKind) : inflightB ⟨.inflight, s⟩ = true := rfl
theorem inflightB_leaving (s : List AttemptKind) : inflightB ⟨.leaving, s⟩ = false := rfl
theorem inflightB_finished (s : List AttemptKind) : inflightB ⟨.finished, s⟩ = false := rfl

/-- The invariant is preserved by every step. -/
theorem engineInv_step {bound : Nat} {c c' : EngineConf}
    (h : EngineInv bound c) (st : EngineStep c c') : EngineInv bound c' := by
  obtain ⟨h1, h2, h3, h4⟩ := h
  cases st with
  | acquireSem ts₁ ts₂ s n cur pk =>
    dsimp only at h1 h2 h3 h4
    refine ⟨?_, ?_, h3, h4⟩ <;>
      (dsimp only
       simp only [List.countP_append, List.countP_cons, inSemB_waiting, inSemB_ready,
         inflightB_waiting, inflightB_ready, if_true, if_false, Bool.false_eq_true,
         eq_self_iff_true] at h1 h2 ⊢
       omega)
  | startCall ts₁ ts₂ o s n cur pk ho =>
    dsimp only at h1 h2 h3 h4
    have m₁ := countP_inflight_le_inSem ts₁
    have m₂ := countP_inflight_le_inSem ts₂
    simp only [List.countP_append, List.countP_cons, inSemB_ready, inSemB_inflight,
      inflightB_ready, inflightB_inflight, if_true, if_false, Bool.false_eq_true,
      eq_self_iff_true] at h1 h2
    refine ⟨?_, ?_, ?_, ?_⟩
    · dsimp only
      simp only [List.countP_append, List.countP_cons, inSemB_inflight, if_true,
        eq_self_iff_true]
      omega
    · dsimp only
      simp only [List.countP_append, List.countP_cons, inflightB_inflight, if_true,
        eq_self_iff_true]
      push_cast
      push_cast at h2
      omega
    · dsimp only
      refine max_le h3 ?_
      push_cast at h2
      omega
    · dsimp only
      exact le_max_of_le_left h4
  | extractFail ts₁ ts₂ s n cur pk =>
    dsimp only at h1 h2 h3 h4
    by_cases he : s.isEmpty <;>
      simp only [he, if_true, if_false] <;>
      refine ⟨?_, ?_, h3, h4⟩ <;>
        (dsimp only
         simp only [List.countP_append, List.countP_cons, inSemB_ready, inSemB_leaving,
           inflightB_ready, inflightB_leaving, if_true, if_false, Bool.false_eq_true,
           eq_self_iff_true] at h1 h2 ⊢
         push_cast at h2 ⊢
         omega)
  | endCallOk ts₁ ts₂ s n cur pk =>
    dsimp only at h1 h2 h3 h4
    refine ⟨?_, ?_, h3, h4⟩ <;>
      (dsimp only
       simp only [List.countP_append, List.countP_cons, inSemB_inflight, inSemB_leaving,
         inflightB_inflight, inflightB_leaving, if_true, if_false, Bool.false_eq_true,
         eq_self_iff_true] at h1 h2 ⊢
       push_cast at h2 ⊢
       omega)
  | endCallErr ts₁ ts₂ s n cur pk =>
    dsimp only at h1 h2 h3 h4
    by_cases he : s.isEmpty <;>
      simp only [he, if_true, if_false] <;>
      refine ⟨?_, ?_, h3, h4⟩ <;>
        (dsimp only
         simp only [List.countP_append, List.countP_cons, inSemB_inflight, inSemB_leaving,
           inSemB_ready, inflightB_inflight, inflightB_leaving, inflightB_ready, if_true,
           if_false, Bool.false_eq_true, eq_self_iff_true] at h1 h2 ⊢
         push_cast at h2 ⊢
         omega)
  | exhausted ts₁ ts₂ n cur pk =>
    dsimp only at h1 h2 h3 h4
    refine ⟨?_, ?_, h3, h4⟩ <;>
      (dsimp only
       simp only [List.countP_append, List.countP_cons, inSemB_ready, inSemB_leaving,
         inflightB_ready, inflightB_leaving, if_true, if_false, Bool.false_eq_true,
         eq_self_iff_true] at h1 h2 ⊢
       push_cast at h2 ⊢
       omega)
  | releaseSem ts₁ ts₂ s n cur pk =>
    dsimp only at h1 h2 h3 h4
    refine ⟨?_, ?_, h3, h4⟩ <;>
      (dsimp only
       simp only [List.countP_append, List.countP_cons, inSemB_leaving, inSemB_finished,
         inflightB_leaving, inflightB_finished, if_true, if_false, Bool.false_eq_true,
         eq_self_iff_true] at h1 h2 ⊢
       push_cast at h2 ⊢
       omega)

/-- The invariant holds in every reachable configuration. -/
theorem engineInv_reach {bound : Nat} {c₀ c : EngineConf}
    (h₀ : EngineInv bound c₀) (hr : EngineReach c₀ c) : EngineInv bound c := by
  induction hr with
  | refl => exact h₀
  | tail _ st ih => exact engineInv_step ih st

/-- C9: for every batch run with `concurrency = C >= 1` and any per-task
attempt scripts, every reachable configuration has recorded peak at most
`C`, at most `C` tasks between tracking start and tracking end, and counter
value at most `C`: at no point do more than `C` item-processing calls
execute simultaneously. -/
theorem c9_peak_bounded (concurrency : Nat) (hC : 1 ≤ concurrency)
    (scripts : List (List AttemptKind)) (c : EngineConf)
    (hr : EngineReach (initConf concurrency scripts) c) :
    c.peak ≤ (concurrency : Int) ∧
    (c.tasks.countP inflightB : Int) ≤ (concurrency : Int) ∧
    c.current ≤ (concurrency : Int) := by
  have hmax : max 1 concurrency = concurrency := by omega
  have hinv := engineInv_reach (engineInv_init concurrency scripts) hr
  obtain ⟨h1, h2, h3, h4⟩ := hinv
  rw [hmax] at h1 h3
  have hmono := countP_inflight_le_inSem c.tasks
  refine ⟨h3, ?_, ?_⟩
  · omega
  · have : (c.tasks.countP inflightB : Int) ≤ (concurrency : Int) := by omega
    omega

/-- C9 witness: the bound instantiated at the initial configuration of a
two-task batch with `concurrency = 2`. -/
theorem c9_peak_bounded_witness :
    1 ≤ 2 ∧
    ((initConf 2 [[AttemptKind.ok], [AttemptKind.err, AttemptKind.ok]]).peak ≤ (2 : Int) ∧
     (((initConf 2 [[AttemptKind.ok], [AttemptKind.err, AttemptKind.ok]]).tasks.countP
        inflightB : Int) ≤ (2 : Int)) ∧
     (initConf 2 [[AttemptKind.ok], [AttemptKind.err, AttemptKind.ok]]).current ≤ (2 : Int)) :=
  ⟨by decide,
   c9_peak_bounded 2 (by decide) [[AttemptKind.ok], [AttemptKind.err, AttemptKind.ok]]
     (initConf 2 [[AttemptKind.ok], [AttemptKind.err, AttemptKind.ok]]) EngineReach.refl⟩

/-- C10 failing run: one CV whose text extraction raises on its only
attempt (`retries = 0`). The task acquires the semaphore, the extraction
fails before `_track_inflight_start`, and the `except Exception` handler
still calls `_track_inflight_end`: the batch reaches a configuration whose
in-flight counter is `-1` — a decrement with no matching increment. -/
theorem c10_negative_counter :
    EngineReach (initConf 1 [[AttemptKind.extErr]])
      ⟨[⟨Phase.leaving, []⟩], 0, -1, 0⟩ ∧
    (⟨[⟨Phase.leaving, []⟩], 0, -1, 0⟩ : EngineConf).current < 0 := by
  constructor
  · have s1 : EngineStep (initConf 1 [[AttemptKind.extErr]])
        ⟨[⟨Phase.ready, [AttemptKind.extErr]⟩], 0, 0, 0⟩ := by
      have h := EngineStep.acquireSem [] [] [AttemptKind.extErr] 0 0 0
      simpa [initConf] using h
    have s2 : EngineStep ⟨[⟨Phase.ready, [AttemptKind.extErr]⟩], 0, 0, 0⟩
        ⟨[⟨Phase.leaving, []⟩], 0, -1, 0⟩ := by
      have h := EngineStep.extractFail [] [] ([] : List AttemptKind) 0 0 0
      simpa using h
    exact EngineReach.tail (EngineReach.tail EngineReach.refl s1) s2
  · decide
